import Mathlib

/-!
Shallow embedding of the Product-Price-Comparison tool (src/app.py).

Conventions of the embedding:
* Python floats are modelled as exact rationals (`Rat`); the float literals
  0.4, 0.25, 0.10, 0.6, 0.01 of the source become 2/5, 1/4, 1/10, 3/5, 1/100.
* A spreadsheet cell read with `dtype=str` is either missing (`pandas` NaN)
  or a string; we model a raw cell for `coerce_price` as the tagged type
  `Cell` (missing / numeric / text), mirroring the three branches of the
  source function.
* Fallible operations return `Option`/`Except`; a Python `raise ValueError`
  becomes `Except.error` carrying the exact message string.
* All definitions are executable, so concrete runs can be settled by `decide`.
-/

namespace App

/-- A raw spreadsheet cell value as seen by `coerce_price` in src/app.py:
the `pd.isna` branch, the `isinstance(s, (int, float))` branch, and the
string branch. -/
inductive Cell where
  | na : Cell
  | num : Rat → Cell
  | str : String → Cell
deriving DecidableEq, Repr

/-- Exact rational addition, written through `mkRat` (core `Rat.add` is
irreducible and would block kernel evaluation of concrete runs). -/
def ratAdd (a b : Rat) : Rat :=
  mkRat (a.num * b.den + b.num * a.den) (a.den * b.den)

/-- Exact rational subtraction through `mkRat`. -/
def ratSub (a b : Rat) : Rat :=
  mkRat (a.num * b.den - b.num * a.den) (a.den * b.den)

/-- Exact rational multiplication through `mkRat`. -/
def ratMul (a b : Rat) : Rat :=
  mkRat (a.num * b.num) (a.den * b.den)

/-- Absolute value of a rational (Python `abs`). -/
def ratAbs (x : Rat) : Rat :=
  if x < 0 then -x else x

/-- Binary maximum on rationals (for Python's `max` over similarity
values). -/
def maxRat (a b : Rat) : Rat :=
  if a < b then b else a

/-- Numeric value of a list of ASCII digit characters (most significant
first), as read by Python `float` for the integer / fractional parts. -/
def digitsVal (ds : List Char) : Nat :=
  ds.foldl (fun a c => 10 * a + (c.toNat - '0'.toNat)) 0

/-- Python `float(txt)` restricted to the character alphabet that can reach
it in `coerce_price` (digits, dots and minus signs, everything else having
been stripped by the regex): an optional sign, then digits with at most one
dot and at least one digit; anything else fails.  Returns `none` exactly
when Python `float` raises `ValueError`. -/
def pythonFloat (cs : List Char) : Option Rat :=
  let signBody : Bool × List Char :=
    match cs with
    | '-' :: t => (true, t)
    | '+' :: t => (false, t)
    | t => (false, t)
  let sgn := signBody.1
  let body := signBody.2
  let intPart := body.takeWhile (· ≠ '.')
  let rest := body.dropWhile (· ≠ '.')
  let mk : Rat → Option Rat := fun v => some (if sgn then -v else v)
  match rest with
  | [] =>
    if intPart ≠ [] ∧ intPart.all Char.isDigit then
      mk (mkRat (digitsVal intPart : Int) 1)
    else none
  | _ :: frac =>
    -- `rest` starts with the first '.', so `frac` is everything after it;
    -- a second '.' inside `frac` fails the all-digits test, as in Python.
    if intPart.all Char.isDigit ∧ frac.all Char.isDigit ∧
        (intPart ≠ [] ∨ frac ≠ []) then
      mk (mkRat (digitsVal intPart * 10 ^ frac.length + digitsVal frac : Int)
        (10 ^ frac.length))
    else none

/-- The regex step `re.sub(r"[^\d\.\-]", "", txt)` of `coerce_price`:
keep digits, dots and minus signs only (\d taken as ASCII digits). -/
def stripKeep (s : String) : List Char :=
  s.data.filter (fun c => c.isDigit || c == '.' || c == '-')

/-- The multi-dot repair of `coerce_price`: when more than one '.' remains
(`txt.count(".") > 1`), split at the last dot (`txt.rsplit(".", 1)`), delete
every dot of the left part and rejoin with a single dot. -/
def fixDots (cs : List Char) : List Char :=
  if cs.count '.' > 1 then
    let rev := cs.reverse
    let rightRev := rev.takeWhile (· ≠ '.')
    let leftRev := (rev.dropWhile (· ≠ '.')).drop 1
    ((leftRev.reverse).filter (· ≠ '.')) ++ ('.' :: rightRev.reverse)
  else cs

/-- The cleaned text `txt` of `coerce_price` just before the `float(txt)`
call: strip to digits/dot/minus, then repair multiple dots. -/
def cleanedText (s : String) : List Char :=
  fixDots (stripKeep s)

/-- Function `coerce_price` from src/app.py (lines 177-196): missing stays missing,
numbers pass through, strings are cleaned and parsed, a parenthesis pair
anywhere flags negation, and any parse failure yields the absent value. -/
def coerce_price : Cell → Option Rat
  | .na => none
  | .num x => some x
  | .str s =>
    let neg := s.data.contains '(' && s.data.contains ')'
    match pythonFloat (cleanedText s) with
    | none => none
    | some v => some (if neg then -v else v)

/-- Substring test on character lists: Python's `cand in ncol`. -/
def isSubList (needle : List Char) : List Char → Bool
  | [] => needle.isEmpty
  | c :: t => needle.isPrefixOf (c :: t) || isSubList needle t

/-- Python `str.strip()` on a character list: drop whitespace from both
ends. -/
def pyStrip (cs : List Char) : List Char :=
  ((cs.dropWhile Char.isWhitespace).reverse.dropWhile Char.isWhitespace).reverse

/-- Function `norm` from src/app.py (lines 83-86): strip surrounding whitespace,
lowercase, keep only the characters matching `[a-z0-9]`. -/
def norm (s : String) : List Char :=
  ((pyStrip s.data).map Char.toLower).filter
    (fun c => ('a' ≤ c && c ≤ 'z') || ('0' ≤ c && c ≤ '9'))

/-- difflib's `b2j` table, queried at one element: the ascending list of
indices `j` with `b[j] = c`.  The strings compared here are far below the
200-element autojunk threshold and no junk predicate is passed, so difflib's
junk machinery is vacuous. -/
def matchIdxs (b : List Char) (c : Char) : List Nat :=
  (List.range b.length).filter (fun j => b.get? j == some c)

/-- Lookup in an association list with default 0 (difflib's `j2len.get(j-1, 0)`). -/
def lookupD (l : List (Nat × Nat)) (k : Nat) : Nat :=
  (l.lookup k).getD 0

/-- Running state of difflib's `find_longest_match` loop: the previous row's
`j2len` table and the best block found so far. -/
structure FLMState where
  j2len : List (Nat × Nat)
  besti : Nat
  bestj : Nat
  bestsize : Nat
deriving Repr

/-- One iteration of the outer `for i in range(alo, ahi)` loop of difflib's
`find_longest_match`: scan the `b`-indices of `a[i]` inside `[blo, bhi)` in
ascending order, extend diagonal runs using the previous row's table, and
update the best block on strict improvement (so the earliest maximal block
in scan order wins). -/
def flmRow (b : List Char) (blo bhi : Nat) (st : FLMState) (ai : Char) (i : Nat) :
    FLMState :=
  let js := (matchIdxs b ai).filter (fun j => blo ≤ j && j < bhi)
  let out := js.foldl
    (fun (acc : List (Nat × Nat) × Nat × Nat × Nat) j =>
      let k := (if j = 0 then 0 else lookupD st.j2len (j - 1)) + 1
      let table := (j, k) :: acc.1
      if acc.2.2.2 < k then (table, i + 1 - k, j + 1 - k, k)
      else (table, acc.2.1, acc.2.2.1, acc.2.2.2))
    ([], st.besti, st.bestj, st.bestsize)
  ⟨out.1, out.2.1, out.2.2.1, out.2.2.2⟩

/-- difflib `SequenceMatcher.find_longest_match(alo, ahi, blo, bhi)` for
junk-free inputs: returns `(i, j, k)`, the longest block with
`a[i:i+k] = b[j:j+k]` inside the window, ties resolved toward the earliest
`i` then earliest `j`, and `(alo, blo, 0)` when nothing matches. -/
def findLongestMatch (a b : List Char) (alo ahi blo bhi : Nat) : Nat × Nat × Nat :=
  let final := (List.range' alo (ahi - alo)).foldl
    (fun (st : FLMState) i =>
      match a.get? i with
      | none => { st with j2len := [] }
      | some c => flmRow b blo bhi st c i)
    ⟨[], alo, blo, 0⟩
  (final.besti, final.bestj, final.bestsize)

/-- Total matched size over difflib's `get_matching_blocks` recursion: take
the longest match of the window, then recurse on the windows to its left and
to its right.  Each level with a nonzero block shrinks the combined window
length by at least 2, so fuel `la + lb + 1` never runs out. -/
def matchTotal (a b : List Char) : Nat → Nat → Nat → Nat → Nat → Nat
  | 0, _, _, _, _ => 0
  | fuel + 1, alo, ahi, blo, bhi =>
    let (i, j, k) := findLongestMatch a b alo ahi blo bhi
    if k = 0 then 0
    else k + matchTotal a b fuel alo i blo j +
      matchTotal a b fuel (i + k) ahi (j + k) bhi

/-- difflib `SequenceMatcher(None, a, b).ratio()` as an exact rational:
`2 * M / T` where `M` is the total size of the matching blocks and
`T = len(a) + len(b)`, and 1.0 when both are empty. -/
def similarity (a b : List Char) : Rat :=
  let T := a.length + b.length
  if T = 0 then 1
  else mkRat (2 * matchTotal a b (T + 1) 0 a.length 0 b.length : Int) T

/-- Constant `CODE_CANDIDATES` from src/app.py (lines 51-64). -/
def CODE_CANDIDATES : List String :=
  ["variantcode", "variant_code", "variant sku", "variantsku", "sku",
   "productcode", "product_code", "itemcode", "item_code", "code",
   "partnumber", "partno"]

/-- Constant `PRICE_CANDIDATES_PRIMARY` from src/app.py (lines 67-78). -/
def PRICE_CANDIDATES_PRIMARY : List String :=
  ["variantprice", "price", "webprice", "websiteprice", "retail", "rrp",
   "sellprice", "sellingprice", "listprice"]

/-- Constant `INC_HINTS` from src/app.py (line 80). -/
def INC_HINTS : List String := ["incgst", "inclgst", "incl_gst", "inc_gst"]

/-- Constant `EXC_HINTS` from src/app.py (line 81). -/
def EXC_HINTS : List String := ["exgst", "exc_gst", "exclgst", "excl_gst"]

/-- The per-column score of `best_match_column` (src/app.py lines 100-116):
+1.0 for every candidate token contained in the normalized name, +0.4 times
the best fuzzy similarity against the candidates, +0.25 when an INC bias
hint is contained, +0.10 when an EXC bias hint is contained.  (Python's
`max(...)` over the candidates would raise on an empty candidate list; every
call site passes a fixed nonempty list, for which the fold below computes
the same maximum since similarities are nonnegative.) -/
def fieldScore (candidates extra_bias_inc extra_bias_exc : List String)
    (col : String) : Rat :=
  let ncol := norm col
  let contain : Rat :=
    candidates.foldl
      (fun acc cand => if isSubList cand.data ncol then ratAdd acc 1 else acc) 0
  let fuzz : Rat :=
    candidates.foldl (fun m cand => maxRat m (similarity ncol cand.data)) 0
  let s := ratAdd contain (ratMul (mkRat 2 5) fuzz)
  let s :=
    if extra_bias_inc.any (fun h => isSubList h.data ncol) then ratAdd s (mkRat 1 4)
    else s
  if extra_bias_exc.any (fun h => isSubList h.data ncol) then ratAdd s (mkRat 1 10)
  else s

/-- Python's `max(xs, key=f)` over a nonempty sequence `c :: cs`: fold that
replaces the current best only on strict improvement, so the first element
of maximal key wins ties. -/
def maxByFirst {α : Type} (f : α → Rat) (c : α) (cs : List α) : α :=
  cs.foldl (fun b x => if f b < f x then x else b) c

/-- Function `best_match_column` from src/app.py (lines 88-121): `None` on an empty
column list; otherwise score every column, take the first column of maximal
score, and return it only when its score reaches the 0.6 floor. -/
def best_match_column (columns candidates extra_bias_inc extra_bias_exc :
    List String) : Option String :=
  match columns with
  | [] => none
  | c :: cs =>
    let f := fieldScore candidates extra_bias_inc extra_bias_exc
    let best := maxByFirst f c cs
    if mkRat 3 5 ≤ f best then some best else none

/-- A sheet as read by `pd.read_excel(..., dtype=str)`: header names plus
rows of cells, every cell either missing (NaN) or a string. -/
structure Frame where
  columns : List String
  rows : List (List (Option String))
deriving DecidableEq, Repr

/-- Keep the entries of `xs` whose mask bit is true (used to drop the
`Unnamed` placeholder columns from headers and rows alike). -/
def maskFilter {α : Type} (mask : List Bool) (xs : List α) : List α :=
  ((mask.zip xs).filter (fun p => p.1)).map Prod.snd

/-- The `df.loc[:, ~df.columns.str.contains("^Unnamed", ...)]` step of
`pick_sheet_and_columns`: drop every column whose header starts with
"Unnamed". -/
def dropUnnamed (f : Frame) : Frame :=
  let keep := f.columns.map (fun c => !("Unnamed".data.isPrefixOf c.data))
  ⟨maskFilter keep f.columns, f.rows.map (maskFilter keep)⟩

/-- The detection metadata dict `{"sheet": ..., "code_col": ..., "price_col": ...}`. -/
structure Meta where
  sheet : String
  code_col : String
  price_col : String
deriving DecidableEq, Repr

/-- Python f-string rendering of an optional column name (`None` prints as
the text "None", a string prints bare). -/
def pyShowOpt : Option String → String
  | none => "None"
  | some s => s

/-- Function `pick_sheet_and_columns` from src/app.py (lines 123-175): scan the
sheets in order, skip empty ones, drop Unnamed columns, run the column
matcher for code and for price, score the sheet (+1 per column found, +0.5
when both), keep the strictly best sheet (first wins ties, initial score
-1), then fail when nothing scored above 0 or when the winning sheet lacks
one of the two columns; on success project to the two detected columns as
(code cell, price cell) pairs in row order. -/
def pick_sheet_and_columns (book : List (String × Frame)) :
    Except String (List (Option String × Option String) × Meta) :=
  let step := book.foldl
    (fun (acc : Option (Frame × Option String × Option String × String) × Rat) sheet =>
      let name := sheet.1
      let df0 := sheet.2
      if df0.rows.isEmpty || df0.columns.isEmpty then acc
      else
        let df := dropUnnamed df0
        let code_col := best_match_column df.columns CODE_CANDIDATES [] []
        let price_col :=
          best_match_column df.columns PRICE_CANDIDATES_PRIMARY INC_HINTS EXC_HINTS
        let score : Rat :=
          ratAdd (ratAdd (if code_col.isSome then 1 else 0)
              (if price_col.isSome then 1 else 0))
            (if code_col.isSome && price_col.isSome then mkRat 1 2 else 0)
        if acc.2 < score then (some (df, code_col, price_col, name), score) else acc)
    (none, -1)
  match step with
  | (none, _) => .error "Could not detect suitable columns in any sheet."
  | (some (df, code_col, price_col, sheet_name), best_score) =>
    if best_score ≤ 0 then .error "Could not detect suitable columns in any sheet."
    else
      match code_col, price_col with
      | some cc, some pc =>
        let cidx := df.columns.indexOf cc
        let pidx := df.columns.indexOf pc
        .ok (df.rows.map (fun r => (r.getD cidx none, r.getD pidx none)),
          ⟨sheet_name, cc, pc⟩)
      | _, _ =>
        .error ("Auto-detection incomplete in sheet \x27" ++ sheet_name ++
          "\x27. Found code column: " ++ pyShowOpt code_col ++
          ", price column: " ++ pyShowOpt price_col)

/-- pandas `astype(str)` on a `dtype=str` column: a missing value (NaN)
becomes the literal string "nan", a string stays itself. -/
def astypeStr : Option String → String
  | none => "nan"
  | some s => s

/-- Step `drop_duplicates(subset=["Variant Code"], keep="last")`: keep a row
exactly when no later row carries the same code, preserving order. -/
def dedupKeepLast : List (String × Option Rat) → List (String × Option Rat)
  | [] => []
  | r :: rest =>
    if (rest.map Prod.fst).contains r.1 then dedupKeepLast rest
    else r :: dedupKeepLast rest

/-- Function `clean_prices` from src/app.py (lines 198-204) on the detected
two-column table: codes go through `astype(str)` then `.str.strip()`,
prices through `coerce_price`, then duplicate codes keep the last
occurrence.  The `dropna(subset=["Variant Code"])` of the source runs after
`astype(str)` has already turned every missing code into the string "nan",
so it drops nothing; the embedding reflects that with the total `String`
code type. -/
def clean_prices (rows : List (Option String × Option String)) :
    List (String × Option Rat) :=
  dedupKeepLast (rows.map (fun r =>
    (String.mk (pyStrip (astypeStr r.1).data),
      coerce_price (match r.2 with | none => .na | some s => .str s))))

/-- Function `price_match` from src/app.py (lines 219-224): "N/A" when either price
is absent, else tolerance-gated "Match"/"Mismatch". -/
def price_match (tolerance : Rat) (a b : Option Rat) : String :=
  match a, b with
  | some a, some b => if ratAbs (ratSub a b) ≤ tolerance then "Match" else "Mismatch"
  | _, _ => "N/A"

/-- Function `compare_label` from src/app.py (lines 228-239), with `a` the website
price and `b` the marlin price; the four match cases are the source's
`pd.isna` if-chain in its original order. -/
def compare_label (tolerance : Rat) (a b : Option Rat) : String :=
  match a, b with
  | none, some _ => "Only in Marlin"
  | some _, none => "Only in Website"
  | none, none => "Missing in both"
  | some a, some b =>
    if ratAbs (ratSub a b) ≤ tolerance then "Equal (within tolerance)"
    else if 0 < ratSub a b then "Website higher" else "Marlin higher"

/-- One row of the merged table of `make_report`: code, the two suffixed
price columns, "Price Difference", "Price Match" and "Comparison". -/
structure MRow where
  code : String
  wprice : Option Rat
  mprice : Option Rat
  diff : Option Rat
  pm : String
  cmp : String
deriving DecidableEq, Repr

/-- Build one merged row from a code and the two joined prices: the
difference column is the pandas subtraction (NaN-propagating), the match
and comparison columns the two row functions of `make_report`. -/
def mkRow (tolerance : Rat) (code : String) (a b : Option Rat) : MRow :=
  { code := code
    wprice := a
    mprice := b
    diff := match a, b with | some x, some y => some (ratSub x y) | _, _ => none
    pm := price_match tolerance a b
    cmp := compare_label tolerance a b }

/-- The `website_df.merge(marlin_df, on="Variant Code", how="outer")` of
`make_report` together with the three derived columns: every website row
joined against the marlin price of its code, followed by the marlin rows
whose code no website row carries.  Cleaned tables have unique codes, so
the first-match lookup is the join. -/
def makeMerged (website marlin : List (String × Option Rat)) (tolerance : Rat) :
    List MRow :=
  (website.map (fun r => mkRow tolerance r.1 r.2 ((marlin.lookup r.1).join)))
    ++ ((marlin.filter (fun r => !((website.map Prod.fst).contains r.1))).map
      (fun r => mkRow tolerance r.1 none r.2))

/-- The "Summary" sheet of `make_report`: detection metadata, the input row
counts, and the four aggregate counts. -/
structure Summary where
  meta_m : Meta
  meta_w : Meta
  totalWebsiteRows : Nat
  totalMarlinRows : Nat
  nMatches : Nat
  nMismatches : Nat
  onlyInWebsite : Nat
  onlyInMarlin : Nat
deriving DecidableEq, Repr

/-- The output artifact of `make_report`: the five filtered views plus the
summary sheet (column order inside a view is fixed by the `MRow` fields). -/
structure Report where
  fullData : List MRow
  matched : List MRow
  mismatched : List MRow
  onlyWebsite : List MRow
  onlyMarlin : List MRow
  summary : Summary
deriving DecidableEq, Repr

/-- Function `make_report` from src/app.py (lines 206-281): merge, classify, filter
the named views and aggregate the summary counts. -/
def make_report (marlin_df website_df : List (String × Option Rat))
    (meta_m meta_w : Meta) (tolerance : Rat) : Report :=
  let merged := makeMerged website_df marlin_df tolerance
  { fullData := merged
    matched := merged.filter (fun r => r.pm == "Match")
    mismatched := merged.filter (fun r => r.pm == "Mismatch")
    onlyWebsite := merged.filter (fun r => r.cmp == "Only in Website")
    onlyMarlin := merged.filter (fun r => r.cmp == "Only in Marlin")
    summary :=
      { meta_m := meta_m
        meta_w := meta_w
        totalWebsiteRows := website_df.length
        totalMarlinRows := marlin_df.length
        nMatches := (merged.filter (fun r => r.pm == "Match")).length
        nMismatches := (merged.filter (fun r => r.pm == "Mismatch")).length
        onlyInWebsite := (merged.filter (fun r => r.cmp == "Only in Website")).length
        onlyInMarlin := (merged.filter (fun r => r.cmp == "Only in Marlin")).length } }

/-- The core pipeline of the `if run:` block of src/app.py (lines 320-329):
detect both workbooks, clean, and assemble the report; any detection error
aborts the run before a report value exists. -/
def runComparison (marlinBook websiteBook : List (String × Frame))
    (tolerance : Rat) : Except String Report := do
  let m_det ← pick_sheet_and_columns marlinBook
  let w_det ← pick_sheet_and_columns websiteBook
  let m := clean_prices m_det.1
  let w := clean_prices w_det.1
  return make_report m w m_det.2 w_det.2 tolerance

/-- Modelled from the spec (§4.5): "difference = website − marlin when both
present, else absent", stated as its own definition to compare with the
source's pandas subtraction. -/
def diffSpec (a b : Option Rat) : Option Rat :=
  match a, b with
  | some x, some y => some (ratSub x y)
  | _, _ => none

/-- Modelled from the spec (§4.5): the comparison-label priority chain in
the spec's own rule order — website absent & marlin present, then marlin
absent & website present, then both absent, then the tolerance test on the
difference, then its sign. -/
def compare_labelSpec (tolerance : Rat) (a b : Option Rat) : String :=
  match a, b with
  | none, some _ => "Only in Marlin"
  | some _, none => "Only in Website"
  | none, none => "Missing in both"
  | some w, some m =>
    let d := ratSub w m
    if ratAbs d ≤ tolerance then "Equal (within tolerance)"
    else if 0 < d then "Website higher"
    else "Marlin higher"

/-! ### Helper lemmas -/

/-- Characterization of Python's first-wins `max`: the chosen element splits
the list into a strictly-smaller prefix and a suffix, and dominates every
element weakly. -/
theorem maxByFirst_decomp {α : Type} (f : α → Rat) (c : α) (cs : List α) :
    ∃ pre post, c :: cs = pre ++ maxByFirst f c cs :: post ∧
      (∀ x ∈ pre, f x < f (maxByFirst f c cs)) ∧
      (∀ x ∈ c :: cs, f x ≤ f (maxByFirst f c cs)) := by
  induction cs generalizing c with
  | nil =>
    exact ⟨[], [], rfl, by simp, by simp [maxByFirst]⟩
  | cons x t ih =>
    by_cases h : f c < f x
    · obtain ⟨pre, post, hdec, hlt, hle⟩ := ih x
      have hm : maxByFirst f c (x :: t) = maxByFirst f x t := by
        simp [maxByFirst, h]
      rw [hm]
      refine ⟨c :: pre, post, ?_, ?_, ?_⟩
      · simpa [List.cons_append] using congrArg (List.cons c) hdec
      · intro y hy
        rcases List.mem_cons.mp hy with rfl | hy
        · exact lt_of_lt_of_le h (hle x (List.mem_cons_self x t))
        · exact hlt y hy
      · intro y hy
        rcases List.mem_cons.mp hy with rfl | hy
        · exact le_of_lt (lt_of_lt_of_le h (hle x (List.mem_cons_self x t)))
        · exact hle y hy
    · obtain ⟨pre, post, hdec, hlt, hle⟩ := ih c
      have hm : maxByFirst f c (x :: t) = maxByFirst f c t := by
        simp [maxByFirst, h]
      rw [hm]
      cases pre with
      | nil =>
        have hc : c = maxByFirst f c t := by simpa using congrArg (fun l => l.headD c) hdec
        refine ⟨[], x :: t, by simpa using hc, by simp, ?_⟩
        intro y hy
        rcases List.mem_cons.mp hy with rfl | hy
        · exact hc ▸ le_rfl
        rcases List.mem_cons.mp hy with rfl | hy
        · exact le_trans (le_of_not_lt h) (hc ▸ le_rfl)
        · exact hle y (List.mem_cons_of_mem c hy)
      | cons p pre₂ =>
        have hp : p = c := (List.cons.injEq _ _ _ _ ▸ hdec).1.symm
        have ht : t = pre₂ ++ maxByFirst f c t :: post := by
          simpa using congrArg List.tail hdec
        have hcm : f c < f (maxByFirst f c t) := hlt p (List.mem_cons_self p pre₂) |> (hp ▸ ·)
        refine ⟨c :: x :: pre₂, post, ?_, ?_, ?_⟩
        · simpa [List.cons_append] using congrArg (fun l => c :: x :: l) ht
        · intro y hy
          rcases List.mem_cons.mp hy with rfl | hy
          · exact hcm
          rcases List.mem_cons.mp hy with rfl | hy
          · exact lt_of_le_of_lt (le_of_not_lt h) hcm
          · exact hlt y (hp ▸ List.mem_cons_of_mem p hy)
        · intro y hy
          rcases List.mem_cons.mp hy with rfl | hy
          · exact le_of_lt hcm
          rcases List.mem_cons.mp hy with rfl | hy
          · exact le_trans (le_of_not_lt h) (le_of_lt hcm)
          · exact hle y (List.mem_cons_of_mem c hy)

/-- Lemma: `price_match` answers "N/A" exactly when one of the two prices is
absent. -/
theorem price_match_na_iff (tolerance : Rat) (a b : Option Rat) :
    price_match tolerance a b = "N/A" ↔ a = none ∨ b = none := by
  rcases a with _ | x <;> rcases b with _ | y <;> simp [price_match]
  split_ifs <;> simp

/-- Lemma: `compare_label` answers one of the three one-sided/missing labels
exactly when one of the two prices is absent. -/
theorem compare_label_missing_iff (tolerance : Rat) (a b : Option Rat) :
    (compare_label tolerance a b = "Only in Website" ∨
      compare_label tolerance a b = "Only in Marlin" ∨
      compare_label tolerance a b = "Missing in both") ↔
      (a = none ∨ b = none) := by
  rcases a with _ | x <;> rcases b with _ | y <;> simp [compare_label]
  split_ifs <;> simp

/-- Every row of the merged table is built by `mkRow` from some code and
price pair. -/
theorem mem_makeMerged {website marlin : List (String × Option Rat)}
    {tolerance : Rat} {row : MRow} (h : row ∈ makeMerged website marlin tolerance) :
    ∃ c a b, row = mkRow tolerance c a b := by
  rcases List.mem_append.mp h with h1 | h1 <;>
  · obtain ⟨r, _, rfl⟩ := List.mem_map.mp h1
    exact ⟨_, _, _, rfl⟩

/-! ### Claim theorems -/

set_option maxRecDepth 1000000
set_option maxHeartbeats 4000000

/-- C1: end-to-end reconciliation — with cleaned tables Marlin
{A1 ↦ 10.00, A2 ↦ 20.00} and Website {A1 ↦ 10.00, A3 ↦ 5.00} and tolerance
0.01, `make_report` classifies A1 as Match / Equal (within tolerance), A2 as
N/A / Only in Marlin, A3 as N/A / Only in Website, and the Summary counts
are Matches=1, Mismatches=0, Only in Website=1, Only in Marlin=1. -/
theorem C1_end_to_end :
    ((make_report [("A1", some (10 : Rat)), ("A2", some 20)]
        [("A1", some (10 : Rat)), ("A3", some 5)]
        ⟨"m", "c", "p"⟩ ⟨"w", "c", "p"⟩ (mkRat 1 100)).fullData.find?
        (fun r => r.code == "A1")
      = some ⟨"A1", some 10, some 10, some 0, "Match", "Equal (within tolerance)"⟩) ∧
    ((make_report [("A1", some (10 : Rat)), ("A2", some 20)]
        [("A1", some (10 : Rat)), ("A3", some 5)]
        ⟨"m", "c", "p"⟩ ⟨"w", "c", "p"⟩ (mkRat 1 100)).fullData.find?
        (fun r => r.code == "A2")
      = some ⟨"A2", none, some 20, none, "N/A", "Only in Marlin"⟩) ∧
    ((make_report [("A1", some (10 : Rat)), ("A2", some 20)]
        [("A1", some (10 : Rat)), ("A3", some 5)]
        ⟨"m", "c", "p"⟩ ⟨"w", "c", "p"⟩ (mkRat 1 100)).fullData.find?
        (fun r => r.code == "A3")
      = some ⟨"A3", some 5, none, none, "N/A", "Only in Website"⟩) ∧
    (make_report [("A1", some (10 : Rat)), ("A2", some 20)]
        [("A1", some (10 : Rat)), ("A3", some 5)]
        ⟨"m", "c", "p"⟩ ⟨"w", "c", "p"⟩ (mkRat 1 100)).summary.nMatches = 1 ∧
    (make_report [("A1", some (10 : Rat)), ("A2", some 20)]
        [("A1", some (10 : Rat)), ("A3", some 5)]
        ⟨"m", "c", "p"⟩ ⟨"w", "c", "p"⟩ (mkRat 1 100)).summary.nMismatches = 0 ∧
    (make_report [("A1", some (10 : Rat)), ("A2", some 20)]
        [("A1", some (10 : Rat)), ("A3", some 5)]
        ⟨"m", "c", "p"⟩ ⟨"w", "c", "p"⟩ (mkRat 1 100)).summary.onlyInWebsite = 1 ∧
    (make_report [("A1", some (10 : Rat)), ("A2", some 20)]
        [("A1", some (10 : Rat)), ("A3", some 5)]
        ⟨"m", "c", "p"⟩ ⟨"w", "c", "p"⟩ (mkRat 1 100)).summary.onlyInMarlin = 1 := by
  decide

/-- C2: in every merged row the match status is "N/A" iff at least one of
the website and marlin prices is absent, and the comparison label is one of
"Only in Website" / "Only in Marlin" / "Missing in both" exactly when the
match status is "N/A". -/
theorem C2_na_consistency (website marlin : List (String × Option Rat))
    (tolerance : Rat) (row : MRow)
    (h : row ∈ makeMerged website marlin tolerance) :
    (row.pm = "N/A" ↔ (row.wprice = none ∨ row.mprice = none)) ∧
    ((row.cmp = "Only in Website" ∨ row.cmp = "Only in Marlin" ∨
      row.cmp = "Missing in both") ↔ row.pm = "N/A") := by
  obtain ⟨c, a, b, rfl⟩ := mem_makeMerged h
  exact ⟨price_match_na_iff tolerance a b,
    (compare_label_missing_iff tolerance a b).trans
      (price_match_na_iff tolerance a b).symm⟩

/-- Witness for C2 at a concrete merged table: the Only-in-Website row of
website {A1 ↦ 10} against an empty marlin table. -/
theorem C2_witness :
    ((mkRow (mkRat 1 100) "A1" (some 10) none).pm = "N/A" ↔
      ((mkRow (mkRat 1 100) "A1" (some 10) none).wprice = none ∨
        (mkRow (mkRat 1 100) "A1" (some 10) none).mprice = none)) ∧
    (((mkRow (mkRat 1 100) "A1" (some 10) none).cmp = "Only in Website" ∨
      (mkRow (mkRat 1 100) "A1" (some 10) none).cmp = "Only in Marlin" ∨
      (mkRow (mkRat 1 100) "A1" (some 10) none).cmp = "Missing in both") ↔
      (mkRow (mkRat 1 100) "A1" (some 10) none).pm = "N/A") :=
  C2_na_consistency [("A1", some 10)] [] (mkRat 1 100)
    (mkRow (mkRat 1 100) "A1" (some 10) none) (by decide)

/-- C3: in every merged row the difference is website minus marlin when
both prices are present and absent otherwise, and the comparison label is
given by the spec's priority-ordered rule chain (`compare_labelSpec`). -/
theorem C3_row_rules (website marlin : List (String × Option Rat))
    (tolerance : Rat) (row : MRow)
    (h : row ∈ makeMerged website marlin tolerance) :
    row.diff = diffSpec row.wprice row.mprice ∧
    row.cmp = compare_labelSpec tolerance row.wprice row.mprice := by
  obtain ⟨c, a, b, rfl⟩ := mem_makeMerged h
  constructor
  · cases a <;> cases b <;> rfl
  · cases a <;> cases b <;> rfl

/-- Witness for C3 at a concrete merged table: the Only-in-Website row of
website {A1 ↦ 10} against an empty marlin table. -/
theorem C3_witness :
    (mkRow (mkRat 1 100) "A1" (some 10) none).diff
      = diffSpec (mkRow (mkRat 1 100) "A1" (some 10) none).wprice
        (mkRow (mkRat 1 100) "A1" (some 10) none).mprice ∧
    (mkRow (mkRat 1 100) "A1" (some 10) none).cmp
      = compare_labelSpec (mkRat 1 100) (mkRow (mkRat 1 100) "A1" (some 10) none).wprice
        (mkRow (mkRat 1 100) "A1" (some 10) none).mprice :=
  C3_row_rules [("A1", some 10)] [] (mkRat 1 100)
    (mkRow (mkRat 1 100) "A1" (some 10) none) (by decide)

/-- C4 counter-evidence: `clean_prices` does NOT drop a row whose code is
missing — `astype(str)` turns the missing code into the literal string
"nan" before `dropna` can see it, so the row survives with code "nan"; a
whitespace-only code likewise survives as the empty string instead of being
dropped as absent. -/
theorem C4_missing_code_kept :
    clean_prices [(none, some "5")] = [("nan", some 5)] ∧
    clean_prices [(some "   ", some "5")] = [("", some 5)] ∧
    clean_prices [(some "A1", some "10"), (some "A1", some "20")]
      = [("A1", some 20)] := by
  decide

/-- C5: the coercion round-trips of the spec — "$1,234.56" to 1234.56,
"(12.50)" to -12.50, "12.34.56" to 1234.56 (only the last dot is the
decimal point), and "" and the missing marker both to the absent value. -/
theorem C5_coercion_cases :
    coerce_price (.str "$1,234.56") = some (mkRat 123456 100) ∧
    coerce_price (.str "(12.50)") = some (-(mkRat 1250 100)) ∧
    coerce_price (.str "12.34.56") = some (mkRat 123456 100) ∧
    coerce_price (.str "") = none ∧
    coerce_price .na = none := by
  decide

/-- C6: `coerce_price` is total and never propagates a failure — the
missing marker yields the absent value (not zero), a numeric cell passes
through, and any string whose cleaned text fails to parse yields the absent
value.  (Totality over all three cell shapes is structural: the Lean
function is defined, without partiality, on every `Cell`.) -/
theorem C6_total_absorbing :
    coerce_price .na = none ∧
    (∀ x : Rat, coerce_price (.num x) = some x) ∧
    (∀ s : String, pythonFloat (cleanedText s) = none →
      coerce_price (.str s) = none) := by
  refine ⟨rfl, fun x => rfl, fun s h => ?_⟩
  simp [coerce_price, h]

/-- Witness for C6: the unparseable string "N/A" is absorbed to the absent
value. -/
theorem C6_witness : coerce_price (.str "N/A") = none :=
  C6_total_absorbing.2.2 "N/A" (by decide)

/-- C7: `best_match_column` returns no match on an empty column list, and
on a nonempty list it picks the column of maximal score with the first
column in input order winning ties, returning no match exactly when that
winning score is below 0.6. -/
theorem C7_selection (candidates extra_bias_inc extra_bias_exc : List String)
    (c : String) (cs : List String) :
    best_match_column [] candidates extra_bias_inc extra_bias_exc = none ∧
    ∃ m pre post,
      best_match_column (c :: cs) candidates extra_bias_inc extra_bias_exc
        = (if mkRat 3 5 ≤ fieldScore candidates extra_bias_inc extra_bias_exc m
            then some m else none) ∧
      c :: cs = pre ++ m :: post ∧
      (∀ x ∈ pre, fieldScore candidates extra_bias_inc extra_bias_exc x <
        fieldScore candidates extra_bias_inc extra_bias_exc m) ∧
      (∀ x ∈ c :: cs, fieldScore candidates extra_bias_inc extra_bias_exc x ≤
        fieldScore candidates extra_bias_inc extra_bias_exc m) := by
  refine ⟨rfl, maxByFirst (fieldScore candidates extra_bias_inc extra_bias_exc) c cs, ?_⟩
  obtain ⟨pre, post, hdec, hlt, hle⟩ :=
    maxByFirst_decomp (fieldScore candidates extra_bias_inc extra_bias_exc) c cs
  exact ⟨pre, post, rfl, hdec, hlt, hle⟩

/-- C8: a workbook whose only sheet has exactly the columns
["Name", "Description"] makes `pick_sheet_and_columns` fail with the
no-suitable-sheet error, whatever its rows, and the whole comparison run
aborts with that error before any report value exists. -/
theorem C8_detection_failure (rows : List (List (Option String)))
    (websiteBook : List (String × Frame)) :
    pick_sheet_and_columns [("Sheet1", ⟨["Name", "Description"], rows⟩)]
      = .error "Could not detect suitable columns in any sheet." ∧
    runComparison [("Sheet1", ⟨["Name", "Description"], rows⟩)] websiteBook (mkRat 1 100)
      = .error "Could not detect suitable columns in any sheet." := by
  cases rows with
  | nil => exact ⟨rfl, rfl⟩
  | cons r rs => exact ⟨by with_unfolding_all rfl, by with_unfolding_all rfl⟩

/-- C9: with the INC/EXC bias hints in place, the header
"Variant Price Inc GST" scores strictly higher than
"Variant Price Exc GST" for the price field, so the INC column is selected
from either ordering of the two candidates. -/
theorem C9_inc_beats_exc :
    fieldScore PRICE_CANDIDATES_PRIMARY INC_HINTS EXC_HINTS "Variant Price Exc GST"
      < fieldScore PRICE_CANDIDATES_PRIMARY INC_HINTS EXC_HINTS "Variant Price Inc GST" ∧
    best_match_column ["Variant Price Inc GST", "Variant Price Exc GST"]
      PRICE_CANDIDATES_PRIMARY INC_HINTS EXC_HINTS = some "Variant Price Inc GST" ∧
    best_match_column ["Variant Price Exc GST", "Variant Price Inc GST"]
      PRICE_CANDIDATES_PRIMARY INC_HINTS EXC_HINTS = some "Variant Price Inc GST" := by
  decide

/-- C10: for every string containing both an opening and a closing
parenthesis, `coerce_price` negates whatever the retained characters parse
to — in particular an explicit minus sign inside parentheses is inverted to
a positive result. -/
theorem C10_paren_negates (s : String) (v : Rat)
    (hop : s.data.contains '(' = true) (hcl : s.data.contains ')' = true)
    (hv : pythonFloat (cleanedText s) = some v) :
    coerce_price (.str s) = some (-v) := by
  simp only [coerce_price, hv, hop, hcl, Bool.and_self]
  simp

/-- Witness for C10: "(-12.50)" coerces to +12.50, the parenthesis signal
inverting the explicit minus sign. -/
theorem C10_witness : coerce_price (.str "(-12.50)") = some (mkRat 25 2) := by
  have h := C10_paren_negates "(-12.50)" (-(mkRat 25 2)) (by decide) (by decide) (by decide)
  simpa using h

end App
